import Mathlib

/-!
Verification of the `wincommands` external-process orchestration layer.

Go strings are modelled as `List Char` (`Str`).  Stateful operations
(filesystem access, child-process execution) are modelled by explicit
effect environments: each facade takes a record describing the outcomes
of its OS calls (stat results, mkdir result, tool exit, write/remove
errors) and is otherwise a direct translation of the Go control flow.
Go standard-library path helpers (`filepath.Ext`, `filepath.Base`,
`filepath.Join`/`Clean`, `filepath.Split`, `strings.TrimSuffix`,
`strings.HasPrefix`, `strings.Contains`, `strings.Join`) are modelled on
`List Char` following their documented Unix semantics.
-/

namespace WinCmd

/-- Go strings, modelled as lists of characters. -/
abbrev Str := List Char

/-! ### Go standard-library models -/

/-- Model of `strings.HasPrefix`. -/
def goStartsWith (s pre : Str) : Bool := pre.isPrefixOf s

/-- Model of `strings.TrimSuffix`: drop `suffix` from the end of `s` when present. -/
def goTrimSuffix (s suffix : Str) : Str :=
  if suffix.isSuffixOf s then s.take (s.length - suffix.length) else s

/-- Model of `strings.Join` with a single-space separator prebuilt by callers. -/
def goJoinSep (sep : Str) (elems : List Str) : Str :=
  List.intercalate sep elems

/-- Model of `filepath.Ext` (Unix): the suffix of the final path element
starting at its last dot, empty when the final element has no dot. -/
def goExt (path : Str) : Str :=
  let revLast := path.reverse.takeWhile (fun c => c ≠ '/')
  let beforeDot := revLast.takeWhile (fun c => c ≠ '.')
  if beforeDot.length = revLast.length then [] else (beforeDot ++ ['.']).reverse

/-- Model of `filepath.Base` (Unix). -/
def goBase (path : Str) : Str :=
  if path = [] then ['.']
  else
    let trimmed := (path.reverse.dropWhile (fun c => c = '/')).reverse
    if trimmed = [] then ['/']
    else (trimmed.reverse.takeWhile (fun c => c ≠ '/')).reverse

/-- Model of `filepath.Split` (Unix): directory part (up to and including
the last separator) and file part. -/
def goSplitFile (path : Str) : Str × Str :=
  let fn := (path.reverse.takeWhile (fun c => c ≠ '/')).reverse
  (path.take (path.length - fn.length), fn)

/-- Split a path at `/` separators (helper for `goClean`). -/
def splitSlash : Str → List Str
  | [] => [[]]
  | c :: rest =>
    match splitSlash rest with
    | [] => [[]]
    | t :: ts => if c = '/' then [] :: t :: ts else (c :: t) :: ts

/-- Model of `filepath.Clean` (Unix), via its documented component
processing: drop empty and `.` components, resolve `..` against the
stack (absorbing it at the root, keeping it when relative). -/
def goClean (path : Str) : Str :=
  if path = [] then ['.']
  else
    let rooted := path.head? = some '/'
    let comps := (splitSlash path).filter (fun c => decide (c ≠ [] ∧ c ≠ ['.']))
    let stack := comps.foldl (fun st c =>
      if c = ['.', '.'] then
        if st ≠ [] ∧ st.getLast? ≠ some ['.', '.'] then st.dropLast
        else if rooted then st
        else st ++ [c]
      else st ++ [c]) ([] : List Str)
    let body := List.intercalate ['/'] stack
    if rooted then '/' :: body
    else if body = [] then ['.'] else body

/-- Model of `filepath.Join` (Unix) on two elements: empty elements are
skipped, the rest are joined with `/` and cleaned. -/
def goJoin (a b : Str) : Str :=
  if a = [] then (if b = [] then [] else goClean b)
  else goClean (a ++ '/' :: b)

/-! ### Command construction (`buildCmd`, `exec.Command`) -/

/-- A built invocation: resolved executable path plus the full argument
vector (`exec.Cmd.Path` and `exec.Cmd.Args`). -/
structure Cmd where
  path : Str
  args : List Str
  deriving DecidableEq, Repr

/-- Model of `exec.Command name arg...`: `Args` is the name followed by
the arguments.  `LookPath` resolution is modelled as the identity, so
`Path` is the given name. -/
def execCommand (name : Str) (arg : List Str) : Cmd :=
  { path := name, args := name :: arg }

/-- `buildCmd` from the source: concatenate the template with the custom
arguments and hand the head and tail to `exec.Command`. -/
def buildCmd (template : List Str) (custom : List Str) : Cmd :=
  let cmd := template ++ custom
  execCommand (cmd.headD []) cmd.tail

/-! ### Path quoting -/

/-- `quotePath` from the source: unchanged when already starting with a
double quote, wrapped in double quotes when it contains a space,
otherwise unchanged. -/
def quotePath (path : Str) : Str :=
  if goStartsWith path ['"'] then path
  else if path.contains ' ' then '"' :: (path ++ ['"'])
  else path

/-! ### Error message formats (`fmt.Errorf`); errors are modelled as
their formatted message strings. -/

/-- Message of `MakeDir`'s error. -/
def mkdirErrMsg (dir msg : Str) : Str :=
  "Commands: Error making directory ".toList ++ dir
    ++ ", error message: ".toList ++ msg

/-- Message of `ExtractText`'s write error. -/
def writeErrMsg (output msg : Str) : Str :=
  "Commands: Error writing to ".toList ++ output
    ++ ", error message: ".toList ++ msg

/-- Message of the copy-failure errors of `runRobo` and `runXcopy`. -/
def copyErrMsg (input outdir cmdStr msg : Str) : Str :=
  "Commands: Error copying ".toList ++ input
    ++ " to ".toList ++ outdir
    ++ " with command ".toList ++ cmdStr
    ++ ", error message: ".toList ++ msg

/-- Message of `WordToPdf`'s combined cleanup-failure error. -/
def cantCreateMsg (statErr remErr : Str) : Str :=
  "Can't create, can't delete: ".toList ++ statErr ++ ", ".toList ++ remErr

/-- The substituted message of `runRobo`'s zero-exit error. -/
def noFilesMsg : Str := "No errors occurred and no files were copied".toList

/-- The error string of a child process exiting with code 1. -/
def exitStatusOne : Str := "exit status 1".toList

/-- The space-joined invocation string `strings.Join(append([]string\x7bcpCmd.Path\x7d, cpCmd.Args...), " ")`. -/
def cmdString (c : Cmd) : Str :=
  goJoinSep [' '] (c.path :: c.args)

/-! ### Bounded executor (`timeOutRun`)

`timeOutRun` starts the command, arms an `AfterFunc` timer that kills
the process (and panics if the kill errors), waits, and stops the
timer.  The interleaving of the timer goroutine with `Wait` is modelled
by a schedule parameter: whether the timer fires before `timer.Stop`
takes effect, and what `cmd.Process.Kill` returns when it does. -/

/-- Schedule of the timeout timer relative to the waited process. -/
inductive TimerEvent where
  /-- The timer is stopped (or the run ends) before it fires. -/
  | neverFires : TimerEvent
  /-- The timer fires and `Kill` succeeds (process still running). -/
  | firesKillOk : TimerEvent
  /-- The timer fires and `Kill` returns an error (process already
  exited and reaped). -/
  | firesKillErr (e : Str) : TimerEvent
  deriving DecidableEq, Repr

/-- Outcome of `timeOutRun`: a returned error value, or a runtime panic. -/
inductive RunOutcome where
  | ret (e : Option Str) : RunOutcome
  | panicked (e : Str) : RunOutcome
  deriving DecidableEq, Repr

/-- `timeOutRun` from the source over an execution schedule: `startErr`
is `cmd.Start()`'s result (the timer is armed only after a successful
start), `ev` the timer schedule, `waitErr` the result of `cmd.Wait()`
(on a successful kill this is the kill-induced failure, e.g.
`signal: killed`). -/
def timeOutRun (startErr : Option Str) (ev : TimerEvent) (waitErr : Option Str) :
    RunOutcome :=
  match startErr with
  | some e => .ret (some e)
  | none =>
    match ev with
    | .firesKillErr e => .panicked e
    | _ => .ret waitErr

/-! ### Overwrite guard and directory creation -/

/-- `handleOverwrite` from the source.  `statOk` abstracts
`os.Stat(output)` succeeding, i.e. the destination existing. -/
def handleOverwrite (overwrite : Bool) (statOk : Bool) : Bool :=
  if !overwrite then
    (if statOk then true else false)
  else false

/-- Abstract result of `os.MkdirAll`. -/
inductive MkdirResult where
  | ok : MkdirResult
  | alreadyExists : MkdirResult
  | err (msg : Str) : MkdirResult
  deriving DecidableEq, Repr

/-- `MakeDir` from the source: `nil` (plus the existed flag) unless the
underlying `MkdirAll` failed for a reason other than existence. -/
def makeDir (r : MkdirResult) (dir : Str) : Option Str × Bool :=
  match r with
  | .alreadyExists => (none, true)
  | .ok => (none, false)
  | .err m => (some (mkdirErrMsg dir m), false)

/-! ### Tool templates (default configuration values) -/

/-- Default Tika install location. -/
def tikaInstall : Str := "C:\\apache_tika\\tika-app-1.5.jar".toList

/-- Default ImageMagick install location. -/
def imageMInstall : Str :=
  "C:\\Program Files\\ImageMagick-6.8.8-Q16\\convert.exe".toList

/-- Default LibreOffice install location. -/
def libreOfficeInstall : Str :=
  "C:\\Program Files\\LibreOffice 5\\program\\soffice".toList

/-- Default thumbnail dimensions. -/
def thumbDimensions : Str := "1024x1024".toList

/-- The text-extraction tool template. -/
def extract : List Str := ["java".toList, "-jar".toList, tikaInstall, "-t".toList]

/-- The thumbnail tool template. -/
def thumb : List Str :=
  [imageMInstall, "-resize".toList, thumbDimensions, "-flatten".toList,
    "-quality".toList, "100".toList]

/-- The PDF-conversion tool template. -/
def pdf : List Str :=
  [libreOfficeInstall, "--headless".toList, "--convert-to".toList,
    "pdf:writer_pdf_Export".toList, "--outdir".toList]

/-- The Unix copy tool template (`part_001`). -/
def cp : List Str := ["cp".toList]

/-- The robocopy tool template (`wincommands_windows.go`). -/
def rcp : List Str := ["robocopy".toList]

/-! ### Copy backends -/

/-- `robo` from the source: split the input into directory and filename,
drop the trailing separator from a non-empty directory, optionally quote,
and build the robocopy invocation. -/
def robo (input outdir : Str) (quote : Bool) : Cmd :=
  let dir0 := (goSplitFile input).1
  let fn0 := (goSplitFile input).2
  let dir1 := if dir0.length > 0 then dir0.dropLast else dir0
  if quote then buildCmd rcp [quotePath dir1, quotePath outdir, quotePath fn0]
  else buildCmd rcp [dir1, outdir, fn0]

/-- `runRobo` from the source, over the result of `cpCmd.Run()`
(`none` = exit code zero, `some e` = error with message `e`; exit code 1
surfaces as the message `exit status 1`).  Zero exit is turned into the
no-files-copied error, `exit status 1` into success, anything else into
a copy error carrying the message. -/
def runRobo (runResult : Option Str) (input outdir : Str) : Option Str :=
  let cpCmd := robo input outdir false
  match runResult with
  | none => some (copyErrMsg input outdir (cmdString cpCmd) noFilesMsg)
  | some e =>
    if e = exitStatusOne then none
    else some (copyErrMsg input outdir (cmdString cpCmd) e)

/-- `copyCmd` from `part_001`: the `cp` invocation (the quote flag is
unused by that backend). -/
def copyCmd (input outdir : Str) (_quote : Bool) : Cmd :=
  buildCmd cp [input, outdir]

/-! ### Operation facades

Each facade takes an effect environment describing the outcomes of its
OS calls, in the order the source performs them, and mirrors the
source's control flow. -/

/-- Effects seen by `ExtractText`: destination stat, `MakeDir` outcome,
the extraction tool's captured output or failure, and the
`ioutil.WriteFile` outcome. -/
structure ExtractEnv where
  statOutput : Bool
  mkdir : MkdirResult
  tika : Except Str Str
  writeErr : Option Str
  deriving Repr

/-- `ExtractText` from the source.  Returns the error value together
with whether the destination file was written (the write succeeded). -/
def extractText (env : ExtractEnv) (input outdir outname : Str)
    (overwrite : Bool) : Option Str × Bool :=
  let output := goJoin outdir outname
  if handleOverwrite overwrite env.statOutput then (none, false)
  else
    match (makeDir env.mkdir outdir).1 with
    | some e => (some e, false)
    | none =>
      let _tikaCmd := buildCmd extract [input]
      match env.tika with
      | .error _ => (none, false)
      | .ok _txt =>
        match env.writeErr with
        | some e => (some (writeErrMsg output e), false)
        | none => (none, true)

/-- Effects seen by `Thumbnail`: destination stat and the result of the
bounded run (its returned error on a non-panicking schedule). -/
structure ThumbEnv where
  statOutput : Bool
  runErr : Option Str
  deriving DecidableEq, Repr

/-- `Thumbnail` from the source: the bounded run's result is returned
directly. -/
def thumbnail (env : ThumbEnv) (input outdir outname : Str)
    (overwrite : Bool) : Option Str :=
  let output := goJoin outdir outname
  if handleOverwrite overwrite env.statOutput then none
  else
    let _thumbCmd := buildCmd thumb [input ++ "[0]".toList, output]
    env.runErr

/-- Effects seen by `FileCopy`: destination stat, `MakeDir` outcome, and
the copy backend's `cmd.Run()` result. -/
structure CopyEnv where
  statOutput : Bool
  mkdir : MkdirResult
  runErr : Option Str
  deriving DecidableEq, Repr

/-- `FileCopy` from `part_000` with the `part_001` backend: the `cp`
command's `Run` result is returned directly. -/
def FileCopy (env : CopyEnv) (input outdir : Str) (overwrite : Bool) :
    Option Str :=
  let _output := goJoin outdir (goBase input)
  if handleOverwrite overwrite env.statOutput then none
  else
    match (makeDir env.mkdir outdir).1 with
    | some e => some e
    | none =>
      let _cpCmd := copyCmd input outdir false
      env.runErr

/-- Effects seen by `FileCopyLog`: destination stat, `MakeDir` outcome,
and the `fmt.Fprintln` result on the log sink. -/
structure CopyLogEnv where
  statOutput : Bool
  mkdir : MkdirResult
  logErr : Option Str
  deriving DecidableEq, Repr

/-- `FileCopyLog` from `part_000`: builds the copy invocation, writes
its space-joined arguments to the log sink, and returns the write
error. -/
def FileCopyLog (env : CopyLogEnv) (input outdir : Str) (overwrite : Bool) :
    Option Str :=
  let _output := goJoin outdir (goBase input)
  if handleOverwrite overwrite env.statOutput then none
  else
    match (makeDir env.mkdir outdir).1 with
    | some e => some e
    | none =>
      let cpCmd := copyCmd input outdir true
      let _line := goJoinSep [' '] cpCmd.args
      env.logErr

/-- The `switch filepath.Ext(input)` of `WordToPdf`, over its eight
literal cases. -/
def wordExtSwitch (ext : Str) : Bool :=
  decide (ext ∈ [".doc".toList, ".DOC".toList, ".docx".toList, ".DOCX".toList,
    ".dotx".toList, ".DOTX".toList, ".docm".toList, ".DOCM".toList])

/-- The destination path computed by `WordToPdf` before the guard. -/
def wordToPdfDest (input outdir : Str) : Str :=
  if wordExtSwitch (goExt input) then
    goJoin outdir (goTrimSuffix (goBase input) (goExt input) ++ ".pdf".toList)
  else goJoin outdir (goBase input ++ ".pdf".toList)

/-- Effects seen by `WordToPdf`: destination stat for the guard,
`MakeDir` outcome, the bounded run's result (which the source discards
with `_ =`), the post-run `os.Stat(output)` result (`none` = the file
exists), and the `os.RemoveAll(outdir)` result. -/
structure PdfEnv where
  statOutput : Bool
  mkdir : MkdirResult
  runErr : Option Str
  statAfter : Option Str
  removeErr : Option Str
  deriving DecidableEq, Repr

/-- `WordToPdf` from the source: returns the `(string, error)` pair. -/
def wordToPdf (env : PdfEnv) (input outdir : Str) (overwrite : Bool) :
    Str × Option Str :=
  let output := wordToPdfDest input outdir
  if handleOverwrite overwrite env.statOutput then (output, none)
  else
    match (makeDir env.mkdir outdir).1 with
    | some e => ([], some e)
    | none =>
      let _pdfCmd := buildCmd pdf [outdir, input]
      let _ignored := env.runErr
      match env.statAfter with
      | some statErr =>
        match env.removeErr with
        | some e => ([], some (cantCreateMsg statErr e))
        | none => ([], none)
      | none => (output, none)

/-! ### Format classification tables -/

/-- The Word-format PUIDs of `IsWord`'s switch. -/
def wordPuids : List Str :=
  ["fmt/37", "fmt/38", "fmt/39", "fmt/40", "fmt/412", "fmt/523", "fmt/597",
    "fmt/599", "fmt/609", "fmt/754", "x-fmt/45"].map String.toList

/-- The PDF-format PUIDs of `IsPDF`'s switch. -/
def pdfPuids : List Str :=
  ["fmt/14", "fmt/15", "fmt/16", "fmt/17", "fmt/18", "fmt/19", "fmt/20",
    "fmt/95", "fmt/144", "fmt/145", "fmt/146", "fmt/147", "fmt/148",
    "fmt/157", "fmt/158", "fmt/276", "fmt/354", "fmt/476", "fmt/477",
    "fmt/478", "fmt/479", "fmt/480", "fmt/481", "fmt/488", "fmt/489",
    "fmt/490", "fmt/491", "fmt/492", "fmt/493"].map String.toList

/-- The text-format PUIDs of `IsText`'s switch. -/
def textPuids : List Str :=
  ["fmt/14", "fmt/15", "fmt/16", "fmt/17", "fmt/18", "fmt/19", "fmt/20",
    "fmt/37", "fmt/38", "fmt/39", "fmt/40", "fmt/95", "fmt/144", "fmt/145",
    "fmt/146", "fmt/147", "fmt/148", "fmt/157", "fmt/158", "fmt/276",
    "fmt/354", "fmt/412", "fmt/473", "fmt/476", "fmt/477", "fmt/478",
    "fmt/479", "fmt/480", "fmt/481", "fmt/488", "fmt/489", "fmt/490",
    "fmt/491", "fmt/492", "fmt/493", "fmt/523", "fmt/597", "fmt/599",
    "fmt/609", "fmt/754", "x-fmt/45", "x-fmt/111", "x-fmt/273", "x-fmt/274",
    "x-fmt/275", "x-fmt/276"].map String.toList

/-- `IsWord` from the source. -/
def IsWord (puid : Str) : Bool := decide (puid ∈ wordPuids)

/-- `IsPDF` from the source. -/
def IsPDF (puid : Str) : Bool := decide (puid ∈ pdfPuids)

/-- `IsText` from the source. -/
def IsText (puid : Str) : Bool := decide (puid ∈ textPuids)

end WinCmd

namespace WinCmd

example : goExt "a/report.doc".toList = ".doc".toList := by decide
example : goExt "a/report".toList = [] := by decide
example : goExt "a.doc/".toList = [] := by decide
example : goBase "a/b.doc".toList = "b.doc".toList := by decide
example : goBase "".toList = ".".toList := by decide
example : goJoin "out".toList "b.pdf".toList = "out/b.pdf".toList := by decide
example : goJoin "out/".toList "b.pdf".toList = "out/b.pdf".toList := by decide
example : goClean "a/../b//./c".toList = "b/c".toList := by decide
example : goSplitFile "a/b/c.doc".toList = ("a/b/".toList, "c.doc".toList) := by decide
example : quotePath "a b".toList = "\"a b\"".toList := by decide
example : quotePath "\"a b".toList = "\"a b".toList := by decide
example : goTrimSuffix "report.doc".toList ".doc".toList = "report".toList := by decide

/-! ### Helper lemmas -/

/-- A string starts with `"` exactly when its first character is `"`. -/
theorem startsWith_quote_iff (p : Str) :
    goStartsWith p ['"'] = true ↔ p.head? = some '"' := by
  cases p with
  | nil => simp [goStartsWith, List.isPrefixOf]
  | cons c l =>
    simp [goStartsWith, List.isPrefixOf]
    exact eq_comm

/-- Evaluation of `quotePath` on a path already starting with a quote. -/
theorem quotePath_of_startsWith (p : Str) (h : goStartsWith p ['"'] = true) :
    quotePath p = p := by
  simp [quotePath, h]

/-- Evaluation of `quotePath` on a path with no space. -/
theorem quotePath_of_no_space (p : Str) (h : ' ' ∉ p) : quotePath p = p := by
  by_cases h1 : goStartsWith p ['"'] = true
  · simp [quotePath, h1]
  · simp [quotePath, h1, h]

/-- Evaluation of `quotePath` on an unquoted path containing a space. -/
theorem quotePath_of_space (p : Str) (h1 : goStartsWith p ['"'] ≠ true)
    (h2 : ' ' ∈ p) : quotePath p = '"' :: (p ++ ['"']) := by
  simp [quotePath, h1, h2]

/-- The Word PUID table is contained in the text PUID table. -/
theorem wordPuids_subset_textPuids : ∀ x ∈ wordPuids, x ∈ textPuids := by decide

/-- The PDF PUID table is contained in the text PUID table. -/
theorem pdfPuids_subset_textPuids : ∀ x ∈ pdfPuids, x ∈ textPuids := by decide

/-! ### Claim theorems -/

/-- C7: `quotePath` is idempotent; a path with no space is returned
unchanged; a path beginning with a double quote is returned unchanged;
otherwise a path containing a space is wrapped in double quotes. -/
theorem quotePath_spec (p : Str) :
    quotePath (quotePath p) = quotePath p
    ∧ (' ' ∉ p → quotePath p = p)
    ∧ (p.head? = some '"' → quotePath p = p)
    ∧ (' ' ∈ p → p.head? ≠ some '"' →
        quotePath p = '"' :: (p ++ ['"'])) := by
  have hq : ∀ l : Str, goStartsWith ('"' :: l) ['"'] = true := by
    intro l; simp [goStartsWith, List.isPrefixOf]
  refine ⟨?_, ?_, ?_, ?_⟩
  · by_cases h1 : goStartsWith p ['"'] = true
    · rw [quotePath_of_startsWith p h1, quotePath_of_startsWith p h1]
    · by_cases h2 : ' ' ∈ p
      · rw [quotePath_of_space p h1 h2,
          quotePath_of_startsWith _ (hq (p ++ ['"']))]
      · rw [quotePath_of_no_space p h2, quotePath_of_no_space p h2]
  · exact quotePath_of_no_space p
  · intro h1
    exact quotePath_of_startsWith p ((startsWith_quote_iff p).mpr h1)
  · intro h2 h1
    have h1' : goStartsWith p ['"'] ≠ true := by
      intro hc; exact h1 ((startsWith_quote_iff p).mp hc)
    exact quotePath_of_space p h1' h2

/-- Witness for C7 at concrete inputs. -/
theorem quotePath_spec_witness :
    quotePath (quotePath "a b".toList) = quotePath "a b".toList
    ∧ (' ' ∉ "no".toList ∧ quotePath "no".toList = "no".toList)
    ∧ (("\"x y".toList).head? = some '"' ∧ quotePath "\"x y".toList = "\"x y".toList)
    ∧ (' ' ∈ "a b".toList
        ∧ quotePath "a b".toList = '"' :: ("a b".toList ++ ['"'])) :=
  ⟨(quotePath_spec _).1,
   ⟨by decide, (quotePath_spec _).2.1 (by decide)⟩,
   ⟨by decide, (quotePath_spec _).2.2.1 (by decide)⟩,
   ⟨by decide, (quotePath_spec _).2.2.2 (by decide) (by decide)⟩⟩

/-- C8: the overwrite guard skips exactly when the overwrite flag is
false and the destination exists, and every facade that receives skip
returns success immediately. -/
theorem handleOverwrite_spec :
    (∀ ow ex : Bool, handleOverwrite ow ex = (!ow && ex))
    ∧ (∀ env : ExtractEnv, ∀ i o n : Str, ∀ ow : Bool,
        handleOverwrite ow env.statOutput = true →
        extractText env i o n ow = (none, false))
    ∧ (∀ env : ThumbEnv, ∀ i o n : Str, ∀ ow : Bool,
        handleOverwrite ow env.statOutput = true →
        thumbnail env i o n ow = none)
    ∧ (∀ env : CopyEnv, ∀ i o : Str, ∀ ow : Bool,
        handleOverwrite ow env.statOutput = true →
        FileCopy env i o ow = none)
    ∧ (∀ env : CopyLogEnv, ∀ i o : Str, ∀ ow : Bool,
        handleOverwrite ow env.statOutput = true →
        FileCopyLog env i o ow = none)
    ∧ (∀ env : PdfEnv, ∀ i o : Str, ∀ ow : Bool,
        handleOverwrite ow env.statOutput = true →
        wordToPdf env i o ow = (wordToPdfDest i o, none)) := by
  refine ⟨by decide, ?_, ?_, ?_, ?_, ?_⟩
  · intro env i o n ow h; simp [extractText, h]
  · intro env i o n ow h; simp [thumbnail, h]
  · intro env i o ow h; simp [FileCopy, h]
  · intro env i o ow h; simp [FileCopyLog, h]
  · intro env i o ow h; simp [wordToPdf, h]

/-- Witness for C8: the guard truth table and a skipped extraction. -/
theorem handleOverwrite_spec_witness :
    handleOverwrite false true = (!false && true)
    ∧ handleOverwrite true true = (!true && true)
    ∧ handleOverwrite false false = (!false && false)
    ∧ extractText ⟨true, .ok, .ok [], none⟩ "a".toList "o".toList "n".toList false
        = (none, false)
    ∧ wordToPdf ⟨true, .ok, none, none, none⟩ "a.doc".toList "o".toList false
        = (wordToPdfDest "a.doc".toList "o".toList, none) :=
  ⟨handleOverwrite_spec.1 false true,
   handleOverwrite_spec.1 true true,
   handleOverwrite_spec.1 false false,
   handleOverwrite_spec.2.1 _ _ _ _ _ (by decide),
   handleOverwrite_spec.2.2.2.2.2 _ _ _ _ (by decide)⟩

/-- C9: the invocation built by `buildCmd` has token sequence exactly
the template followed by the trailing arguments, as discrete tokens. -/
theorem buildCmd_tokens (T A : List Str) (h : T ≠ []) :
    (buildCmd T A).args = T ++ A := by
  cases T with
  | nil => exact absurd rfl h
  | cons t ts => simp [buildCmd, execCommand]

/-- Witness for C9: tokens with embedded spaces are preserved intact. -/
theorem buildCmd_tokens_witness :
    (["convert".toList, "-resize".toList] : List Str) ≠ []
    ∧ (buildCmd ["convert".toList, "-resize".toList]
        ["a b.png".toList, "out dir/t.png".toList]).args
      = ["convert".toList, "-resize".toList, "a b.png".toList,
          "out dir/t.png".toList] :=
  ⟨by decide, buildCmd_tokens _ _ (by decide)⟩

/-- C10: the format-classification predicates are nested: every Word
PUID and every PDF PUID is also a text PUID. -/
theorem puid_classification_nested (p : Str) :
    (IsWord p = true → IsText p = true)
    ∧ (IsPDF p = true → IsText p = true) := by
  constructor
  · intro h
    exact decide_eq_true (wordPuids_subset_textPuids p (of_decide_eq_true h))
  · intro h
    exact decide_eq_true (pdfPuids_subset_textPuids p (of_decide_eq_true h))

/-- C1: `runRobo` inverts the copy tool's exit semantics: a zero exit
becomes the no-files-copied error, exit status 1 becomes success, and
any other failure becomes an error carrying the input, the output
directory and the full invocation string. -/
theorem runRobo_exit_semantics (input outdir : Str) :
    (runRobo none input outdir
        = some (copyErrMsg input outdir
            (cmdString (robo input outdir false)) noFilesMsg)
      ∧ noFilesMsg <:+:
          copyErrMsg input outdir (cmdString (robo input outdir false)) noFilesMsg)
    ∧ runRobo (some exitStatusOne) input outdir = none
    ∧ (∀ e, e ≠ exitStatusOne →
        runRobo (some e) input outdir
          = some (copyErrMsg input outdir
              (cmdString (robo input outdir false)) e)
        ∧ input <:+:
            copyErrMsg input outdir (cmdString (robo input outdir false)) e
        ∧ outdir <:+:
            copyErrMsg input outdir (cmdString (robo input outdir false)) e
        ∧ cmdString (robo input outdir false) <:+:
            copyErrMsg input outdir (cmdString (robo input outdir false)) e) := by
  refine ⟨⟨rfl, ?_⟩, by simp [runRobo], ?_⟩
  · exact ⟨"Commands: Error copying ".toList ++ input ++ " to ".toList ++ outdir
      ++ " with command ".toList ++ cmdString (robo input outdir false)
      ++ ", error message: ".toList, [], by simp [copyErrMsg]⟩
  · intro e he
    refine ⟨by simp [runRobo, he], ?_, ?_, ?_⟩
    · exact ⟨"Commands: Error copying ".toList,
        " to ".toList ++ outdir ++ " with command ".toList
          ++ cmdString (robo input outdir false) ++ ", error message: ".toList ++ e,
        by simp [copyErrMsg]⟩
    · exact ⟨"Commands: Error copying ".toList ++ input ++ " to ".toList,
        " with command ".toList ++ cmdString (robo input outdir false)
          ++ ", error message: ".toList ++ e,
        by simp [copyErrMsg]⟩
    · exact ⟨"Commands: Error copying ".toList ++ input ++ " to ".toList ++ outdir
          ++ " with command ".toList,
        ", error message: ".toList ++ e,
        by simp [copyErrMsg]⟩

/-- Witness for C1 at a concrete failing exit. -/
theorem runRobo_exit_semantics_witness :
    ("exit status 2".toList ≠ exitStatusOne)
    ∧ runRobo (some ("exit status 2".toList)) "a/b.txt".toList "out".toList
        = some (copyErrMsg "a/b.txt".toList "out".toList
            (cmdString (robo "a/b.txt".toList "out".toList false))
            ("exit status 2".toList)) :=
  ⟨by decide,
   ((runRobo_exit_semantics "a/b.txt".toList "out".toList).2.2
      ("exit status 2".toList) (by decide)).1⟩

/-- C2: when `WordToPdf` is not skipped by the guard and directory
creation succeeds, an absent destination after the bounded run leads to
removal of the whole output directory and an empty, error-free result;
a failing removal yields the combined fatal error carrying both the
stat error and the removal error; an existing destination yields its
path with no error. -/
theorem wordToPdf_missing_dest (env : PdfEnv) (input outdir : Str) (ow : Bool)
    (hskip : handleOverwrite ow env.statOutput = false)
    (hmk : ∀ m, env.mkdir ≠ MkdirResult.err m) :
    (env.statAfter = none →
        wordToPdf env input outdir ow = (wordToPdfDest input outdir, none))
    ∧ (∀ se, env.statAfter = some se → env.removeErr = none →
        wordToPdf env input outdir ow = ([], none))
    ∧ (∀ se re, env.statAfter = some se → env.removeErr = some re →
        wordToPdf env input outdir ow = ([], some (cantCreateMsg se re))
        ∧ se <:+: cantCreateMsg se re
        ∧ re <:+: cantCreateMsg se re) := by
  have hmsg : ∀ se re : Str, se <:+: cantCreateMsg se re ∧ re <:+: cantCreateMsg se re := by
    intro se re
    constructor
    · exact ⟨"Can't create, can't delete: ".toList, ", ".toList ++ re,
        by simp [cantCreateMsg]⟩
    · exact ⟨"Can't create, can't delete: ".toList ++ se ++ ", ".toList, [],
        by simp [cantCreateMsg]⟩
  cases hm : env.mkdir with
  | err m => exact absurd hm (hmk m)
  | ok =>
    refine ⟨?_, ?_, ?_⟩
    · intro hstat; simp [wordToPdf, hskip, hm, makeDir, hstat]
    · intro se hstat hrem; simp [wordToPdf, hskip, hm, makeDir, hstat, hrem]
    · intro se re hstat hrem
      exact ⟨by simp [wordToPdf, hskip, hm, makeDir, hstat, hrem], hmsg se re⟩
  | alreadyExists =>
    refine ⟨?_, ?_, ?_⟩
    · intro hstat; simp [wordToPdf, hskip, hm, makeDir, hstat]
    · intro se hstat hrem; simp [wordToPdf, hskip, hm, makeDir, hstat, hrem]
    · intro se re hstat hrem
      exact ⟨by simp [wordToPdf, hskip, hm, makeDir, hstat, hrem], hmsg se re⟩

/-- Witness for C2: a concrete run with an absent destination whose
directory removal succeeds returns the empty path with no error. -/
theorem wordToPdf_missing_dest_witness :
    wordToPdf ⟨false, .ok, none, some ("no such file".toList), none⟩
        "a/x.doc".toList "out".toList true = ([], none) :=
  (wordToPdf_missing_dest ⟨false, .ok, none, some ("no such file".toList), none⟩
      "a/x.doc".toList "out".toList true (by decide)
      (by intro m h; cases h)).2.1
    ("no such file".toList) rfl rfl

/-- C3: when `ExtractText` is not skipped and directory creation
succeeds, a failing extraction tool yields success with no destination
file written; the only error outcomes of `ExtractText` are directory
creation failure and write failure. -/
theorem extractText_soft_failure (env : ExtractEnv)
    (input outdir outname : Str) (ow : Bool)
    (hskip : handleOverwrite ow env.statOutput = false) :
    (∀ e, (∀ m, env.mkdir ≠ MkdirResult.err m) → env.tika = .error e →
        extractText env input outdir outname ow = (none, false))
    ∧ (∀ msg, (extractText env input outdir outname ow).1 = some msg →
        (∃ m, env.mkdir = MkdirResult.err m) ∨ ∃ w, env.writeErr = some w) := by
  constructor
  · intro e hmk htika
    cases hm : env.mkdir with
    | err m => exact absurd hm (hmk m)
    | ok => simp [extractText, hskip, hm, makeDir, htika]
    | alreadyExists => simp [extractText, hskip, hm, makeDir, htika]
  · intro msg hres
    cases hm : env.mkdir with
    | err m => exact Or.inl ⟨m, rfl⟩
    | ok =>
      cases htika : env.tika with
      | error e => simp [extractText, hskip, hm, makeDir, htika] at hres
      | ok txt =>
        cases hw : env.writeErr with
        | none => simp [extractText, hskip, hm, makeDir, htika, hw] at hres
        | some w => exact Or.inr ⟨w, rfl⟩
    | alreadyExists =>
      cases htika : env.tika with
      | error e => simp [extractText, hskip, hm, makeDir, htika] at hres
      | ok txt =>
        cases hw : env.writeErr with
        | none => simp [extractText, hskip, hm, makeDir, htika, hw] at hres
        | some w => exact Or.inr ⟨w, rfl⟩

/-- Witness for C3: a concrete failing extraction returns success with
no file written. -/
theorem extractText_soft_failure_witness :
    extractText ⟨false, .ok, .error ("exit status 1".toList), none⟩
        "a.doc".toList "out".toList "a.txt".toList true = (none, false) :=
  (extractText_soft_failure ⟨false, .ok, .error ("exit status 1".toList), none⟩
      "a.doc".toList "out".toList "a.txt".toList true (by decide)).1
    ("exit status 1".toList) (by intro m h; cases h) rfl

/-- C4 counterexample: a `WordToPdf` call whose bounded run ends in a
kill-induced failure (`signal: killed`) and whose destination is absent
returns `("", nil)` — the execution failure is not surfaced as an
error, contrary to the claim. -/
theorem wordToPdf_run_error_not_surfaced :
    wordToPdf ⟨false, .ok, some ("signal: killed".toList),
        some ("stat a: no such file".toList), none⟩
      "a/report.doc".toList "out".toList true = ([], none) := by decide

/-- C4 amended: `Thumbnail` returns the bounded run's result directly,
so a kill-induced failure is surfaced as its error; `WordToPdf`
discards the bounded run's result, so its return value is independent
of any execution failure. -/
theorem timeout_surfacing_amended (tenv : ThumbEnv) (penv : PdfEnv)
    (input outdir outname : Str) (ow : Bool) :
    (handleOverwrite ow tenv.statOutput = false →
        thumbnail tenv input outdir outname ow = tenv.runErr)
    ∧ (∀ e, wordToPdf { penv with runErr := e } input outdir ow
          = wordToPdf { penv with runErr := none } input outdir ow) := by
  constructor
  · intro h; simp [thumbnail, h]
  · intro e; cases penv; simp [wordToPdf]

/-- Witness for C4's amended statement at concrete inputs. -/
theorem timeout_surfacing_amended_witness :
    thumbnail ⟨false, some ("signal: killed".toList)⟩
        "a.doc".toList "out".toList "t.png".toList true
      = some ("signal: killed".toList)
    ∧ wordToPdf ⟨false, .ok, some ("signal: killed".toList),
          some ("absent".toList), none⟩ "a.doc".toList "out".toList true
      = wordToPdf ⟨false, .ok, none, some ("absent".toList), none⟩
          "a.doc".toList "out".toList true :=
  ⟨(timeout_surfacing_amended ⟨false, some ("signal: killed".toList)⟩
      ⟨false, .ok, none, some ("absent".toList), none⟩
      "a.doc".toList "out".toList "t.png".toList true).1 (by decide),
   (timeout_surfacing_amended ⟨false, some ("signal: killed".toList)⟩
      ⟨false, .ok, none, some ("absent".toList), none⟩
      "a.doc".toList "out".toList "t.png".toList true).2
     (some ("signal: killed".toList))⟩

/-- C5: evaluating `timeOutRun` on the schedule in which the timer
fires after the child has already exited and been reaped — so that
`cmd.Process.Kill` returns the process-already-finished error — shows
the source panics instead of treating the kill as a benign no-op. -/
theorem timeOutRun_kill_error_panics :
    timeOutRun none (.firesKillErr ("os: process already finished".toList)) none
      = .panicked ("os: process already finished".toList) := rfl

/-- C6: the destination computed by `WordToPdf` strips the extension
exactly for the eight lower- or upper-case Word-family extensions
before appending `.pdf`, and appends `.pdf` to the full base name for
every other input, including mixed-case Word extensions and inputs
without an extension; the result is joined onto the output
directory. -/
theorem wordToPdfDest_spec (input outdir : Str) :
    (wordToPdfDest input outdir =
      if goExt input ∈ [".doc".toList, ".docx".toList, ".dotx".toList, ".docm".toList]
          ∨ goExt input ∈ [".DOC".toList, ".DOCX".toList, ".DOTX".toList, ".DOCM".toList]
      then goJoin outdir (goTrimSuffix (goBase input) (goExt input) ++ ".pdf".toList)
      else goJoin outdir (goBase input ++ ".pdf".toList))
    ∧ wordToPdfDest "a/report.doc".toList "out".toList = "out/report.pdf".toList
    ∧ wordToPdfDest "a/report.DOCX".toList "out".toList = "out/report.pdf".toList
    ∧ wordToPdfDest "a/report.Doc".toList "out".toList = "out/report.Doc.pdf".toList
    ∧ wordToPdfDest "a/readme".toList "out".toList = "out/readme.pdf".toList := by
  refine ⟨?_, by decide, by decide, by decide, by decide⟩
  have hiff : wordExtSwitch (goExt input) = true ↔
      (goExt input ∈ [".doc".toList, ".docx".toList, ".dotx".toList, ".docm".toList]
        ∨ goExt input ∈ [".DOC".toList, ".DOCX".toList, ".DOTX".toList, ".DOCM".toList]) := by
    simp only [wordExtSwitch, decide_eq_true_eq, List.mem_cons, List.not_mem_nil,
      or_false]
    tauto
  by_cases h : wordExtSwitch (goExt input) = true
  · simp only [wordToPdfDest]
    rw [if_pos h, if_pos (hiff.mp h)]
  · have h2 : ¬(goExt input ∈ [".doc".toList, ".docx".toList, ".dotx".toList, ".docm".toList]
        ∨ goExt input ∈ [".DOC".toList, ".DOCX".toList, ".DOTX".toList, ".DOCM".toList]) :=
      fun hc => h (hiff.mpr hc)
    simp only [wordToPdfDest]
    rw [if_neg h, if_neg h2]

/-- Witness for C10 on concrete PUIDs. -/
theorem puid_classification_nested_witness :
    (IsWord "fmt/37".toList = true ∧ IsText "fmt/37".toList = true)
    ∧ (IsPDF "fmt/14".toList = true ∧ IsText "fmt/14".toList = true) :=
  ⟨⟨by decide, (puid_classification_nested _).1 (by decide)⟩,
   ⟨by decide, (puid_classification_nested _).2 (by decide)⟩⟩

end WinCmd
